import Mathlib

/-
Verification development for the income-table streaming query layer of the
tzindex columnar indexer.  The definitions below are a shallow embedding of
`StreamIncomeTable` and the `Income` marshallers (server/tables, income file)
together with the small amount of surrounding contract they rely on.
Machine integers are modelled as `Nat`/`Int`; decimal input values are
modelled exactly as integer mantissa/scale pairs; fallible steps return
`Except`.
-/

namespace Tzindex

/-- Filter modes of the pack query engine.  Modelled from the spec:
the `pack.FilterMode` enum lives in the external packdb module; the spec
(§3, §6) lists EQ, NEQ, GT, GTE, LT, LTE, IN, NIN, RANGE, REGEXP plus an
invalid sentinel used by `ParseFilterMode` for unparseable inputs. -/
inductive FilterMode where
  | invalid
  | equal
  | notEqual
  | gt
  | gte
  | lt
  | lte
  | inList
  | notInList
  | range
  | regexp
deriving DecidableEq, Repr

/-- `FilterMode.IsValid` from packdb: every mode except the invalid sentinel. -/
def FilterMode.isValid : FilterMode → Bool
  | .invalid => false
  | _ => true

/-- Modelled from the spec: `pack.ParseFilterMode` (external packdb module);
the spec (§6) gives the mode tokens `eq|ne|gt|gte|lt|lte|in|nin|rg|re`. -/
def parseFilterMode (s : String) : FilterMode :=
  if s = "eq" then .equal
  else if s = "ne" then .notEqual
  else if s = "gt" then .gt
  else if s = "gte" then .gte
  else if s = "lt" then .lt
  else if s = "lte" then .lte
  else if s = "in" then .inList
  else if s = "nin" then .notInList
  else if s = "rg" then .range
  else if s = "re" then .regexp
  else .invalid

/-- Structured request errors raised (as panics) by the handler: the
`server.EBadRequest` / `ENotFound` / `EInternal` constructors with their
error-code constant and message. -/
inductive ApiError where
  | badRequest (code : String) (msg : String)
  | notFound (code : String) (msg : String)
  | internalErr (code : String) (msg : String)
deriving DecidableEq, Repr

/-- Decidable equality for `Except` results, used to evaluate the compiler
on concrete requests. -/
instance {ε α : Type} [DecidableEq ε] [DecidableEq α] :
    DecidableEq (Except ε α) := fun x y =>
  match x, y with
  | .error e, .error f =>
    if h : e = f then .isTrue (congrArg Except.error h)
    else .isFalse (fun hh => h (Except.error.inj hh))
  | .ok a, .ok b =>
    if h : a = b then .isTrue (congrArg Except.ok h)
    else .isFalse (fun hh => h (Except.ok.inj hh))
  | .error _, .ok _ => .isFalse (fun hh => Except.noConfusion hh)
  | .ok _, .error _ => .isFalse (fun hh => Except.noConfusion hh)

/-- Typed condition values: a scalar integer, an integer list (IN/NIN), or a
from/to pair (RANGE).  All income columns filtered by the claims are integer
valued after coercion. -/
inductive CondValue where
  | intV (i : ℤ)
  | listV (l : List ℤ)
  | rangeV (lo hi : ℤ)
deriving DecidableEq, Repr

/-- `pack.Condition`: resolved storage field (short tag), mode, coerced value
and the raw debugging string, as built by `StreamIncomeTable`. -/
structure Condition where
  field : String
  mode : FilterMode
  value : CondValue
  raw : String
deriving DecidableEq, Repr

/-- The projection of `model.Income` onto the columns this development
touches: primary key `row_id` (tag I), `account_id` (tag A), `cycle` (tag c)
and the stored percent `luck_pct`.  `model.Income` itself is not under src;
the tags I/A/c are those used by `StreamIncomeTable` (`table.Fields().Pk()`,
`Find("A")`, `Find("c")` and the init extras). -/
structure IncomeRow where
  rowId : ℕ
  accountId : ℕ
  cycle : ℤ
  luckPct : ℤ
deriving DecidableEq, Repr

/-- The long names of the stored income columns, in the order of the
`MarshalJSONVerbose` struct (which mirrors the table schema). -/
def incomeStoredColumns : List String :=
  ["row_id", "cycle", "account_id", "rolls", "balance", "delegated",
   "active_stake", "n_delegations", "n_baking_rights", "n_endorsing_rights",
   "luck", "luck_percent", "contribution_percent", "performance_percent",
   "n_blocks_baked", "n_blocks_proposed", "n_blocks_not_baked",
   "n_blocks_endorsed", "n_blocks_not_endorsed", "n_slots_endorsed",
   "n_seeds_revealed", "expected_income", "total_income", "total_deposits",
   "baking_income", "endorsing_income", "accusation_income", "seed_income",
   "fees_income", "total_loss", "accusation_loss", "seed_loss",
   "endorsing_loss", "lost_accusation_fees", "lost_accusation_rewards",
   "lost_accusation_deposits", "lost_seed_fees", "lost_seed_rewards"]

/-- The long-to-short name map `incomeSourceNames`: the reverse name map of
the income schema plus the extra translations installed by `init()`
(`address` to A, `time`/`start_time`/`end_time` to c).  The pack struct tags
of `model.Income` are not under src; beyond the tags I, A and c fixed by
`StreamIncomeTable` itself, short tags are abstract placeholders written
`t_` plus the long name. -/
def incomeSourceNames (s : String) : Option String :=
  if s = "address" then some "A"
  else if s = "time" ∨ s = "start_time" ∨ s = "end_time" then some "c"
  else if s = "row_id" then some "I"
  else if s = "account_id" then some "A"
  else if s = "cycle" then some "c"
  else if s ∈ incomeStoredColumns then some ("t_" ++ s)
  else none

/-- Reads the storage column of an `IncomeRow` addressed by its short tag. -/
def rowField (r : IncomeRow) (f : String) : Option ℤ :=
  if f = "I" then some (r.rowId : ℤ)
  else if f = "A" then some (r.accountId : ℤ)
  else if f = "c" then some r.cycle
  else if f = "t_luck_percent" then some r.luckPct
  else none

/-- Modelled from the spec: predicate evaluation of the pack query engine
(external packdb module; spec §2 item 4 and §3 FilterMode table).  A
condition on a known column compares the stored integer under the mode. -/
def evalCondition (c : Condition) (r : IncomeRow) : Bool :=
  match rowField r c.field with
  | none => false
  | some x =>
    match c.mode, c.value with
    | .equal, .intV v => decide (x = v)
    | .notEqual, .intV v => decide (x ≠ v)
    | .gt, .intV v => decide (v < x)
    | .gte, .intV v => decide (v ≤ x)
    | .lt, .intV v => decide (x < v)
    | .lte, .intV v => decide (x ≤ v)
    | .inList, .listV l => decide (x ∈ l)
    | .notInList, .listV l => decide (x ∉ l)
    | .range, .rangeV lo hi => decide (lo ≤ x ∧ x ≤ hi)
    | _, _ => false

/-- A row matches a query when it satisfies the AND of all conditions. -/
def matchRow (conds : List Condition) (r : IncomeRow) : Bool :=
  conds.all (fun c => evalCondition c r)

/-- Modelled from the spec: the streaming table scan of the pack engine
(§2 item 4, §5 ordering) emits exactly the rows matching the AND of the
compiled conditions, in table order. -/
def streamQuery (conds : List Condition) (rows : List IncomeRow) : List IncomeRow :=
  rows.filter (matchRow conds)

/-- Runs a compiled query: a compile error aborts the request before any row
is produced, otherwise the matching rows are streamed. -/
def runIncomeQueryWith (compiled : Except ApiError (List Condition))
    (rows : List IncomeRow) : Except ApiError (List IncomeRow) :=
  match compiled with
  | .error e => .error e
  | .ok conds => .ok (streamQuery conds rows)

/-- Digit scan: accumulates the decimal value of a character list, failing
at the first non-digit. -/
def parseDigitsGo : List Char → ℕ → Option ℕ
  | [], acc => some acc
  | c :: cs, acc =>
    if c.isDigit then parseDigitsGo cs (acc * 10 + (c.toNat - 48)) else none

/-- Parses a nonempty all-digit decimal character list (no sign, no bound). -/
def parseDigitsL (l : List Char) : Option ℕ :=
  match l with
  | [] => none
  | _ => parseDigitsGo l 0

/-- Go `strconv.ParseUint(s, 10, 64)`: decimal digits only, value below
2^64.  (Go checks the bound during the scan; for digit-only input the
result is the same.) -/
def parseUint64 (s : String) : Option ℕ :=
  (parseDigitsL s.toList).bind fun n => if n < 2 ^ 64 then some n else none

/-- Sign handling shared by the signed numeric parsers: strips one leading
`+` or `-` and reports whether the value is negated. -/
def stripSign : List Char → Bool × List Char
  | '-' :: t => (true, t)
  | '+' :: t => (false, t)
  | t => (false, t)

/-- Go `strconv.ParseInt(s, 10, 64)`: optional sign, decimal digits, value
in the signed 64-bit range. -/
def parseInt (s : String) : Option ℤ :=
  match stripSign s.toList with
  | (true, cs) =>
    (parseDigitsL cs).bind fun n =>
      if n ≤ 2 ^ 63 then some (-(n : ℤ)) else none
  | (false, cs) =>
    (parseDigitsL cs).bind fun n =>
      if n < 2 ^ 63 then some (n : ℤ) else none

/-- Splits a character list at every occurrence of the separator, like Go
`strings.Split` with a one-character separator (the only shape the handler
uses: `.` in filter keys, `,` in value lists). -/
def splitOnCharList (sep : Char) : List Char → List (List Char)
  | [] => [[]]
  | c :: cs =>
    if c = sep then [] :: splitOnCharList sep cs
    else
      match splitOnCharList sep cs with
      | [] => [[c]]
      | h :: t => (c :: h) :: t

/-- String form of `splitOnCharList`. -/
def splitOnChar (sep : Char) (s : String) : List String :=
  (splitOnCharList sep s.toList).map String.mk

/-- An exact decimal number: value `num / 10 ^ scale`.  This is the model of
the decimal literals fed to Go `strconv.ParseFloat` by the value coercer;
all inputs used in concrete statements below evaluate identically under
float64 arithmetic. -/
structure Decimal where
  num : ℤ
  scale : ℕ
deriving DecidableEq, Repr

/-- Go `strconv.ParseFloat` restricted to plain decimal literals
(optional sign, digits, optional fractional part), read exactly. -/
def parseDecimal (s : String) : Option Decimal :=
  match stripSign s.toList with
  | (neg, cs) =>
    match splitOnCharList '.' cs with
    | [a] =>
      (parseDigitsL a).map fun n =>
        ⟨if neg then -(n : ℤ) else (n : ℤ), 0⟩
    | [a, b] =>
      if a.isEmpty ∧ b.isEmpty then none
      else
        match (if a.isEmpty then some 0 else parseDigitsL a),
              (if b.isEmpty then some 0 else parseDigitsL b) with
        | some x, some y =>
          let mant : ℤ := (x : ℤ) * 10 ^ b.length + (y : ℤ)
          some ⟨if neg then -mant else mant, b.length⟩
        | _, _ => none
    | _ => none

/-- The percent input coercion of `StreamIncomeTable`: Go
`int64(fval * 10000)` truncates the product toward zero; on the exact
decimal `d` this is the truncated quotient `(num * 10000) tdiv 10^scale`. -/
def percentToStored (d : Decimal) : ℤ :=
  (d.num * 10000).tdiv ((10 : ℤ) ^ d.scale)

/-- The brief/CSV/verbose percent rendering of the `Income` marshallers:
`float64(stored) / 100` printed with two fractional digits, i.e. the exact
decimal `stored / 10^2` for the magnitudes in scope. -/
def displayPercent (p : ℤ) : Decimal := ⟨p, 2⟩

/-- Rendering a stored percent and feeding the display value back through
the percent filter coercion. -/
def percentRoundTrip (p : ℤ) : ℤ := percentToStored (displayPercent p)

/-- Query order (`pack.OrderType`): ascending or descending primary key. -/
inductive OrderType where
  | asc
  | desc
deriving DecidableEq, Repr

/-- The `cursor` key branch of `StreamIncomeTable`: parse the value as an
unsigned decimal, reject non-numeric input as `PARAM_INVALID`, and add a
primary-key condition `pk > N` (ASC) or `pk < N` (DESC). -/
def compileCursor (v : String) (order : OrderType) : Except ApiError Condition :=
  match parseUint64 v with
  | none => .error (.badRequest "EC_PARAM_INVALID" ("invalid cursor value " ++ v))
  | some id =>
    let cursorMode := if order = .desc then FilterMode.lt else FilterMode.gt
    .ok { field := "I", mode := cursorMode, value := .intV (id : ℤ), raw := v }

/-- The single-address compile step of the `address` branch (modes EQ/NEQ):
`LookupAccount` returning no entry or row id 0 yields the sentinel condition
with value `MaxUint64` under the given mode, otherwise the account row id. -/
def compileAddressEqNeq (mode : FilterMode) (accRowId : Option ℕ)
    (raw : String) : Condition :=
  match accRowId with
  | none =>
    { field := "A", mode := mode, value := .intV (2 ^ 64 - 1),
      raw := "account not found" }
  | some id =>
    if id = 0 then
      { field := "A", mode := mode, value := .intV (2 ^ 64 - 1),
        raw := "account not found" }
    else
      { field := "A", mode := mode, value := .intV (id : ℤ), raw := raw }

/-- Modelled from the spec: the per-request tip observation together with
the collaborators consulted during predicate compilation — tzgo
`Params.CycleFromHeight`/`BlockTime`/`ConvertAmount`, the block index
lookup `LookupBlockHeightFromTime`, tzgo `ParseAddress` validity, and
packdb `util.ParseTime`, none of which live under src, plus the account
lookup `Indexer.LookupAccount` (etl/queries.go), of which only the outcome
matters here: the found account row id, or none when there is no entry.
Times are integers (Go nanosecond clock), heights and cycles are integers;
the lookups are kept abstract as functions. -/
structure ChainConfig where
  bestHeight : ℤ
  bestTime : ℤ
  blockTime : ℤ
  cycleFromHeight : ℤ → ℤ
  heightFromTime : ℤ → ℤ
  parseTime : String → Option ℤ
  parseAddress : String → Bool
  lookupAccount : String → Option ℕ
  convertAmount : Decimal → ℤ

/-- The height a wall-clock time resolves to in the `time` branch: at or
before the tip, the block index lookup; in the future, tip height plus the
truncated quotient of the time delta by the block time (Go `Duration`
division truncates toward zero). -/
def resolveTimeHeight (cfg : ChainConfig) (t : ℤ) : ℤ :=
  if ¬ (cfg.bestTime < t) then cfg.heightFromTime t
  else cfg.bestHeight + (t - cfg.bestTime).tdiv cfg.blockTime

/-- The scalar (non-RANGE, e.g. EQ) arm of the `time` branch: the condition
is on the cycle column with the cycle of the resolved height. -/
def compileTimeScalar (cfg : ChainConfig) (mode : FilterMode) (t : ℤ)
    (raw : String) : Condition :=
  { field := "c", mode := mode,
    value := .intV (cfg.cycleFromHeight (resolveTimeHeight cfg t)),
    raw := raw }

/-- The RANGE arm of the `time` branch: both endpoints are resolved
independently to heights and then cycles. -/
def compileTimeRange (cfg : ChainConfig) (t1 t2 : ℤ) (raw : String) :
    Condition :=
  { field := "c", mode := .range,
    value := .rangeV (cfg.cycleFromHeight (resolveTimeHeight cfg t1))
      (cfg.cycleFromHeight (resolveTimeHeight cfg t2)),
    raw := raw }

/-- The `time` key branch: `pack.ParseCondition` with a datetime field
(external packdb; modelled from the spec: RANGE takes a from,to pair and the
other modes a single time) parses the value, then the parsed times are
translated to cycle conditions. -/
def compileTimeKey (cfg : ChainConfig) (mode : FilterMode) (v : String) :
    Except ApiError Condition :=
  if mode = .range then
    match splitOnChar ',' v with
    | [a, b] =>
      match cfg.parseTime a, cfg.parseTime b with
      | some t1, some t2 => .ok (compileTimeRange cfg t1 t2 v)
      | _, _ =>
        .error (.badRequest "EC_PARAM_INVALID" ("invalid time filter value " ++ v))
    | _ =>
      .error (.badRequest "EC_PARAM_INVALID" ("invalid time filter value " ++ v))
  else
    match cfg.parseTime v with
    | some t => .ok (compileTimeScalar cfg mode t v)
    | none =>
      .error (.badRequest "EC_PARAM_INVALID" ("invalid time filter value " ++ v))

/-- The multi-address collection of the `address` IN/NIN arm: each entry
must parse as an address, unknown accounts (no entry or row id 0) are
silently dropped. -/
def collectAddressIds (cfg : ChainConfig) : List String → Except ApiError (List ℤ)
  | [] => .ok []
  | a :: rest =>
    if cfg.parseAddress a then
      match collectAddressIds cfg rest with
      | .error e => .error e
      | .ok ids =>
        match cfg.lookupAccount a with
        | none => .ok ids
        | some id => if id = 0 then .ok ids else .ok ((id : ℤ) :: ids)
    else .error (.badRequest "EC_PARAM_INVALID" ("invalid address " ++ a))

/-- The `address` key branch: EQ/NEQ resolve a single address (sentinel
condition when unknown), IN/NIN resolve a comma list dropping unknown
addresses, every other mode is rejected. -/
def compileAddressKey (cfg : ChainConfig) (mode : FilterMode) (v : String) :
    Except ApiError Condition :=
  match mode with
  | .equal | .notEqual =>
    if cfg.parseAddress v then
      .ok (compileAddressEqNeq mode (cfg.lookupAccount v) v)
    else .error (.badRequest "EC_PARAM_INVALID" ("invalid address " ++ v))
  | .inList | .notInList =>
    match collectAddressIds cfg (splitOnChar ',' v) with
    | .error e => .error e
    | .ok ids => .ok { field := "A", mode := mode, value := .listV ids, raw := v }
  | _ =>
    .error (.badRequest "EC_PARAM_INVALID"
      ("invalid filter mode for column address"))

/-- Parses every entry of a comma-split list as a decimal integer. -/
def parseIntParts : List String → Option (List ℤ)
  | [] => some []
  | x :: xs =>
    match parseInt x, parseIntParts xs with
    | some i, some l => some (i :: l)
    | _, _ => none

/-- Modelled from the spec: `pack.ParseCondition` (external packdb) on an
integer-typed storage column — scalar modes parse one decimal integer,
IN/NIN a comma list, RANGE a from,to pair; REGEXP does not apply to integer
columns. -/
def parseIntCondition (fld : String) (mode : FilterMode) (v : String) :
    Option Condition :=
  match mode with
  | .invalid => none
  | .regexp => none
  | .inList | .notInList =>
    (parseIntParts (splitOnChar ',' v)).map fun l =>
      { field := fld, mode := mode, value := .listV l, raw := v }
  | .range =>
    match splitOnChar ',' v with
    | [a, b] =>
      match parseInt a, parseInt b with
      | some x, some y =>
        some { field := fld, mode := .range, value := .rangeV x y, raw := v }
      | _, _ => none
    | _ => none
  | _ =>
    (parseInt v).map fun i =>
      { field := fld, mode := mode, value := .intV i, raw := v }

/-- Error-propagating map over the entries of a comma-separated value. -/
def mapExcept {α β : Type} (f : α → Except ApiError β) :
    List α → Except ApiError (List β)
  | [] => .ok []
  | x :: xs =>
    match f x with
    | .error e => .error e
    | .ok y =>
      match mapExcept f xs with
      | .error e => .error e
      | .ok ys => .ok (y :: ys)

/-- The percent value transform (`luck_percent`, `contribution_percent`,
`performance_percent`): each comma-separated entry is parsed as a decimal
and replaced by the truncated product with 10000. -/
def transformPercentValue (key v : String) : Except ApiError String :=
  match mapExcept
      (fun vv =>
        match parseDecimal vv with
        | none =>
          .error (.badRequest "EC_PARAM_INVALID"
            ("invalid " ++ key ++ " filter value " ++ vv))
        | some d => .ok (toString (percentToStored d)))
      (splitOnChar ',' v) with
  | .error e => .error e
  | .ok parts => .ok (String.intercalate "," parts)

/-- The amount columns whose filter values are converted from display to
base units via `params.ConvertAmount`. -/
def amountColumns : List String :=
  ["luck", "balance", "delegated", "active_stake", "expected_income",
   "total_income", "total_bonds", "baking_income", "endorsing_income",
   "accusation_income", "seed_income", "fees_income", "total_loss",
   "accusation_loss", "seed_loss", "endorsing_loss", "lost_accusation_fees",
   "lost_accusation_rewards", "lost_accusation_deposits", "lost_seed_fees",
   "lost_seed_rewards"]

/-- The percent columns with the times-10000 filter transform. -/
def percentColumns : List String :=
  ["luck_percent", "contribution_percent", "performance_percent"]

/-- The amount value transform: each comma-separated entry is parsed as a
decimal and replaced by `params.ConvertAmount` of it. -/
def transformAmountValue (cfg : ChainConfig) (key v : String) :
    Except ApiError String :=
  match mapExcept
      (fun vv =>
        match parseDecimal vv with
        | none =>
          .error (.badRequest "EC_PARAM_INVALID"
            ("invalid " ++ key ++ " filter value " ++ vv))
        | some d => .ok (toString (cfg.convertAmount d)))
      (splitOnChar ',' v) with
  | .error e => .error e
  | .ok parts => .ok (String.intercalate "," parts)

/-- The per-name value transforms of the generic branch: the `cycle=head`
sentinel, the percent scaling and the amount scaling; all other columns
pass through. -/
def transformValue (cfg : ChainConfig) (pre key v : String) :
    Except ApiError String :=
  if pre = "cycle" then
    .ok (if v = "head" then toString (cfg.cycleFromHeight cfg.bestHeight) else v)
  else if pre ∈ percentColumns then transformPercentValue key v
  else if pre ∈ amountColumns then transformAmountValue cfg key v
  else .ok v

/-- The `start_time`/`end_time` handling inside the generic branch: only
mode EQ is accepted; the time is resolved through the block index (no
future-time extrapolation) and compiled to `cycle ≥ c` for `start_time`
and `cycle ≤ c` for `end_time`. -/
def compileStartEndTime (cfg : ChainConfig) (pre : String) (mode : FilterMode)
    (v : String) : Except ApiError Condition :=
  if mode ≠ .equal then
    .error (.badRequest "EC_PARAM_INVALID"
      ("invalid filter mode for column " ++ pre))
  else
    match cfg.parseTime v with
    | none =>
      .error (.badRequest "EC_PARAM_INVALID"
        ("invalid " ++ pre ++ " filter value " ++ v))
    | some t =>
      let cmode := if pre = "start_time" then FilterMode.gte else FilterMode.lte
      .ok { field := "c", mode := cmode,
            value := .intV (cfg.cycleFromHeight (cfg.heightFromTime t)),
            raw := v }

/-- One value of the generic (default) branch: `start_time`/`end_time`
compile directly to a cycle bound and skip the generic parser (the `continue`
in the source); every other column is transformed and handed to the generic
condition parser, whose failure is wrapped as `PARAM_INVALID`. -/
def compileGenericValue (cfg : ChainConfig) (pre short : String)
    (mode : FilterMode) (v : String) : Except ApiError Condition :=
  if pre = "start_time" ∨ pre = "end_time" then
    compileStartEndTime cfg pre mode v
  else
    match transformValue cfg pre short v with
    | .error e => .error e
    | .ok v' =>
      match parseIntCondition short mode v' with
      | some c => .ok c
      | none =>
        .error (.badRequest "EC_PARAM_INVALID"
          ("invalid " ++ short ++ " filter value " ++ v'))

/-- The outcome of one query key: skipped (reserved transport keys) or a
list of AND conditions. -/
inductive KeyOutcome where
  | skipped
  | conditions (cs : List Condition)
deriving DecidableEq, Repr

/-- Mode resolution at the head of the filter loop: no suffix defaults to
EQ; a suffix is parsed and an unparseable mode is rejected before anything
else about the key is examined. -/
def resolveMode (suffix : Option String) : Except ApiError FilterMode :=
  match suffix with
  | none => .ok .equal
  | some s =>
    if (parseFilterMode s).isValid then .ok (parseFilterMode s)
    else .error (.badRequest "EC_PARAM_INVALID" ("invalid filter mode " ++ s))

/-- The body of the filter loop of `StreamIncomeTable` for one query key,
after the key has been split at the first dot: resolve the mode, skip
reserved keys, dispatch `cursor`/`address`/`time`, and otherwise translate
the long name (unknown names are rejected) and compile each value. -/
def compileIncomeKeyParts (cfg : ChainConfig) (order : OrderType)
    (pre : String) (suffix : Option String) (vals : List String) :
    Except ApiError KeyOutcome :=
  match resolveMode suffix with
  | .error e => .error e
  | .ok mode =>
    if pre = "columns" ∨ pre = "limit" ∨ pre = "order" ∨ pre = "verbose" ∨
        pre = "filename" then
      .ok .skipped
    else if pre = "cursor" then
      match compileCursor (vals.headD "") order with
      | .error e => .error e
      | .ok c => .ok (.conditions [c])
    else if pre = "address" then
      match compileAddressKey cfg mode (vals.headD "") with
      | .error e => .error e
      | .ok c => .ok (.conditions [c])
    else if pre = "time" then
      match compileTimeKey cfg mode (vals.headD "") with
      | .error e => .error e
      | .ok c => .ok (.conditions [c])
    else
      match incomeSourceNames pre with
      | none =>
        .error (.badRequest "EC_PARAM_INVALID" ("unknown column " ++ pre))
      | some short =>
        match mapExcept (compileGenericValue cfg pre short mode) vals with
        | .error e => .error e
        | .ok cs => .ok (.conditions cs)

/-- Splits a query key at dots into the field name and the optional mode
suffix, as `strings.Split(key, ".")` with `keys[0]`/`keys[1]`. -/
def splitKeyParts (key : String) : String × Option String :=
  match splitOnChar '.' key with
  | [] => ("", none)
  | [p] => (p, none)
  | p :: s :: _ => (p, some s)

/-- The filter-loop body on an unsplit query key. -/
def compileIncomeKey (cfg : ChainConfig) (order : OrderType) (key : String)
    (vals : List String) : Except ApiError KeyOutcome :=
  compileIncomeKeyParts cfg order (splitKeyParts key).1 (splitKeyParts key).2 vals

/-- The projection translation of `StreamIncomeTable`: each requested long
column name is resolved through the registry — an unknown name aborts the
request with `PARAM_INVALID` — and virtual `-` tags are dropped from the
storage fetch set. -/
def resolveColumns : List String → Except ApiError (List String)
  | [] => .ok []
  | v :: rest =>
    match incomeSourceNames v with
    | none =>
      .error (.badRequest "EC_PARAM_INVALID" ("unknown column " ++ v))
    | some n =>
      match resolveColumns rest with
      | .error e => .error e
      | .ok l => .ok (if n ≠ "-" then n :: l else l)

/-- The brief field renderer of `Income.MarshalJSONBrief`, restricted to
the integer columns carried by `IncomeRow`; a name outside the switch
ladder renders nothing (the `default: continue`). -/
def briefField (r : IncomeRow) (v : String) : Option String :=
  if v = "row_id" then some (toString r.rowId)
  else if v = "cycle" then some (toString r.cycle)
  else if v = "account_id" then some (toString r.accountId)
  else none

/-- The column loop of `MarshalJSONBrief`: a rendered column appends its
value and, when it is not in the last position, a comma; a skipped column
appends neither. -/
def briefBody (r : IncomeRow) (total : ℕ) : List String → ℕ → String
  | [], _ => ""
  | v :: rest, i =>
    (match briefField r v with
     | none => ""
     | some s => s ++ (if i < total - 1 then "," else "")) ++
    briefBody r total rest (i + 1)

/-- `Income.MarshalJSONBrief`: the bracketed positional array over the
request columns. -/
def marshalJSONBrief (cols : List String) (r : IncomeRow) : String :=
  "[" ++ briefBody r cols.length cols 0 ++ "]"

/-- Stop signals of the streaming callback: `io.EOF` for the limit cut-off
and a database failure with its message. -/
inductive StreamErr where
  | eof
  | dbFail (msg : String)
deriving DecidableEq, Repr

/-- The row callback loop of the JSON/CSV streaming arms: each row is
emitted and counted, and once a positive limit is reached the callback
returns `io.EOF`, which stops the scan. -/
def runCallbackLoop (limit : ℕ) : List IncomeRow → ℕ →
    List IncomeRow × ℕ × Option StreamErr
  | [], count => ([], count, none)
  | r :: rest, count =>
    if 0 < limit ∧ count + 1 = limit then ([r], count + 1, some .eof)
    else
      match runCallbackLoop limit rest (count + 1) with
      | (es, c, e) => (r :: es, c, e)

/-- One streaming run over the matching rows: the callback loop, then — if
the scan was not cut off — the iterator failure, if any, is surfaced as the
stream error.  Modelled from the spec: `table.Stream` (external packdb)
returns the callback error or the iterator failure. -/
def runStream (limit : ℕ) (rows : List IncomeRow) (failAfter : Option String) :
    List IncomeRow × ℕ × Option StreamErr :=
  match runCallbackLoop limit rows 0 with
  | (es, c, some e) => (es, c, some e)
  | (es, c, none) => (es, c, failAfter.map .dbFail)

/-- Modelled from the spec: `ctx.StreamTrailer` (tzindex server package,
not under src) writes the error as the `X-Error` trailer "except EOF"
(source comment); end-of-iteration and success leave it empty. -/
def trailerErrorText : Option StreamErr → String
  | none => ""
  | some .eof => ""
  | some (.dbFail m) => m

/-- The wire-visible actions of one streamed response: the status line,
body text, and the final trailer with cursor, row count and error text. -/
inductive WriteEvent where
  | statusLine (code : ℕ)
  | body (s : String)
  | trailer (cursor : String) (count : ℕ) (errText : String)
deriving DecidableEq, Repr

/-- The next-cursor rule: the last emitted row id, or the unchanged input
cursor when no row was emitted. -/
def nextCursor (inputCursor : String) (emitted : List IncomeRow) : String :=
  match (emitted.map (fun r => r.rowId)).getLast? with
  | some lastId => if 0 < lastId then toString lastId else inputCursor
  | none => inputCursor

/-- The comma-separated row bodies of the JSON arm (`needComma` logic). -/
def rowEvents (render : IncomeRow → String) (emitted : List IncomeRow) :
    List WriteEvent :=
  ((emitted.map render).intersperse ",").map .body

/-- The JSON arm of the stream dispatcher: status and headers first, the
opening bracket, the emitted rows, the closing bracket — written on the
normal path and, via the deferred recover, also when the run aborts — and
the trailer with cursor, count and error text. -/
def dispatchJSON (render : IncomeRow → String) (inputCursor : String)
    (limit : ℕ) (rows : List IncomeRow) (failAfter : Option String) :
    List WriteEvent :=
  match runStream limit rows failAfter with
  | (emitted, count, err) =>
    [.statusLine 200, .body "["] ++ rowEvents render emitted ++
      [.body "]",
       .trailer (nextCursor inputCursor emitted) count (trailerErrorText err)]

/-- A concrete configuration fixture used to evaluate the compiler in the
closed statements below: identity cycle/height maps, decimal parse for
times, `tz`-prefixed strings as valid addresses, an empty account index,
and six-decimal amount conversion. -/
def cfg0 : ChainConfig :=
  { bestHeight := 100
    bestTime := 1000
    blockTime := 10
    cycleFromHeight := fun h => h
    heightFromTime := fun t => t
    parseTime := fun s => (parseUint64 s).map Int.ofNat
    parseAddress := fun s =>
      match s.toList with
      | 't' :: 'z' :: _ => true
      | _ => false
    lookupAccount := fun _ => none
    convertAmount := fun d => (d.num * 1000000).tdiv ((10 : ℤ) ^ d.scale) }

/-- A one-row table fixture: row id 1, account id 5. -/
def row5 : IncomeRow := ⟨1, 5, 0, 0⟩

/-- The time-to-cycle resolution rule as the spec states it: a time not
after the tip resolves through the block index, a future time extrapolates
from the tip by the floor of the time delta over the block time (`/` on ℤ
is Euclidean division, the floor for the positive divisors in scope), and
the cycle of the resulting height is taken.  This definition follows the
spec wording and is compared against the source translation. -/
def specResolveCycle (cfg : ChainConfig) (t : ℤ) : ℤ :=
  if t ≤ cfg.bestTime then cfg.cycleFromHeight (cfg.heightFromTime t)
  else cfg.cycleFromHeight (cfg.bestHeight + (t - cfg.bestTime) / cfg.blockTime)

/-- Reading the account-id column by its short tag. -/
theorem rowField_A (r : IncomeRow) : rowField r "A" = some (r.accountId : ℤ) := rfl

/-- Reading the stored luck percent column by its short tag. -/
theorem rowField_luckPct (r : IncomeRow) :
    rowField r "t_luck_percent" = some r.luckPct := rfl

/-- Callback-loop lemma: with a positive limit still ahead and enough rows,
the loop emits exactly the missing rows and stops with `io.EOF`. -/
theorem runCallbackLoop_limit_hit (limit : ℕ) (rows : List IncomeRow) :
    ∀ c : ℕ, c < limit → limit ≤ c + rows.length →
      runCallbackLoop limit rows c =
        (rows.take (limit - c), limit, some .eof) := by
  induction rows with
  | nil =>
    intro c hc hlen
    simp only [List.length_nil, Nat.add_zero] at hlen
    omega
  | cons r rest ih =>
    intro c hc hlen
    by_cases hstop : c + 1 = limit
    · rw [runCallbackLoop, if_pos ⟨by omega, hstop⟩]
      have h1 : limit - c = 1 := by omega
      rw [h1, hstop]
      rfl
    · rw [runCallbackLoop, if_neg (by rintro ⟨_, h⟩; exact hstop h)]
      rw [ih (c + 1) (by omega) (by simp at hlen ⊢; omega)]
      have h2 : limit - c = (limit - (c + 1)) + 1 := by omega
      rw [h2, List.take_succ_cons]

/-- Callback-loop lemma: with no limit, or a limit the remaining rows never
reach, the loop emits every row and stops without a signal. -/
theorem runCallbackLoop_no_cutoff (limit : ℕ) (rows : List IncomeRow) :
    ∀ c : ℕ, limit = 0 ∨ c + rows.length < limit →
      runCallbackLoop limit rows c = (rows, c + rows.length, none) := by
  induction rows with
  | nil => intro c _; simp [runCallbackLoop]
  | cons r rest ih =>
    intro c h
    rw [runCallbackLoop, if_neg (by rintro ⟨hpos, heq⟩; simp at h; omega)]
    rw [ih (c + 1) (by simp at h ⊢; omega)]
    simp
    omega

/-- The compiled time condition agrees with the spec resolution rule, given
a positive block time. -/
theorem resolveCycle_agrees (cfg : ChainConfig) (hb : 0 < cfg.blockTime)
    (t : ℤ) :
    cfg.cycleFromHeight (resolveTimeHeight cfg t) = specResolveCycle cfg t := by
  unfold resolveTimeHeight specResolveCycle
  by_cases h : cfg.bestTime < t
  · rw [if_neg (by simpa using h), if_neg (by omega)]
    rw [Int.tdiv_eq_ediv (by omega) (by omega)]
  · rw [if_pos (by simpa using h), if_pos (by omega)]

/-- The default (generic) branch of the key compiler, once the mode has
resolved, the key is not reserved or specially dispatched, and the long
name resolves to a stored column. -/
theorem compileIncomeKeyParts_generic (cfg : ChainConfig) (order : OrderType)
    (pre : String) (suffix : Option String) (vals : List String)
    (mode : FilterMode) (short : String)
    (hm : resolveMode suffix = .ok mode)
    (h1 : pre ≠ "columns") (h2 : pre ≠ "limit") (h3 : pre ≠ "order")
    (h4 : pre ≠ "verbose") (h5 : pre ≠ "filename") (h6 : pre ≠ "cursor")
    (h7 : pre ≠ "address") (h8 : pre ≠ "time")
    (hs : incomeSourceNames pre = some short) :
    compileIncomeKeyParts cfg order pre suffix vals =
      match mapExcept (compileGenericValue cfg pre short mode) vals with
      | .error e => .error e
      | .ok cs => .ok (.conditions cs) := by
  simp only [compileIncomeKeyParts, hm, hs]
  rw [if_neg (by simp [h1, h2, h3, h4, h5]), if_neg h6, if_neg h7, if_neg h8]

/-- C1 counterexample: an `address` filter with mode NEQ whose valid address
resolves to no account compiles to the sentinel condition
`account_id ≠ MaxUint64` — which matches a row with account id 5, so the
emitted row count is 1, not 0 as the claim states for NEQ. -/
theorem address_neq_unresolved_matches_row :
    compileAddressKey cfg0 .notEqual "tz1qqq" =
      .ok { field := "A", mode := .notEqual, value := .intV (2 ^ 64 - 1),
            raw := "account not found" } ∧
    runIncomeQueryWith
        (.ok [compileAddressEqNeq .notEqual none "tz1qqq"]) [row5] =
      .ok [row5] := by
  decide

/-- C1 (amended): for an unresolvable address under EQ or NEQ the compiler
adds a condition on the account-id column with value MaxUint64 under the
given mode and the query still runs to completion; under EQ the condition
is guaranteed false, so the emitted row count is zero (an empty, successful
stream), while under NEQ it matches every row whose account id differs from
MaxUint64. -/
theorem address_unresolved_sentinel_spec (mode : FilterMode) (raw : String)
    (rows : List IncomeRow) (hm : mode = .equal ∨ mode = .notEqual)
    (hids : ∀ r ∈ rows, r.accountId < 2 ^ 64 - 1) :
    (compileAddressEqNeq mode none raw).value = .intV (2 ^ 64 - 1) ∧
    (compileAddressEqNeq mode none raw).field = "A" ∧
    (mode = .equal →
      runIncomeQueryWith (.ok [compileAddressEqNeq mode none raw]) rows =
        .ok []) ∧
    (mode = .notEqual →
      runIncomeQueryWith (.ok [compileAddressEqNeq mode none raw]) rows =
        .ok rows) := by
  refine ⟨rfl, rfl, ?_, ?_⟩
  · intro h
    subst h
    simp only [runIncomeQueryWith, streamQuery, Except.ok.injEq]
    rw [List.filter_eq_nil_iff]
    intro r hr
    simp only [matchRow, compileAddressEqNeq, List.all_cons, List.all_nil,
      Bool.and_true, evalCondition, rowField_A, decide_eq_true_eq]
    have := hids r hr
    omega
  · intro h
    subst h
    simp only [runIncomeQueryWith, streamQuery, Except.ok.injEq]
    rw [List.filter_eq_self]
    intro r hr
    simp only [matchRow, compileAddressEqNeq, List.all_cons, List.all_nil,
      Bool.and_true, evalCondition, rowField_A, decide_eq_true_eq]
    have := hids r hr
    omega

/-- C1 witness: at the concrete one-row table and mode EQ, the unresolved
address yields an empty successful stream. -/
theorem address_unresolved_sentinel_spec_witness :
    runIncomeQueryWith (.ok [compileAddressEqNeq .equal none "tz1qqq"]) [row5] =
      .ok [] :=
  (address_unresolved_sentinel_spec .equal "tz1qqq" [row5] (Or.inl rfl)
    (by decide)).2.2.1 rfl

/-- C2 counterexample: the filter `luck_percent.gte=100` compiles to the
storage condition `luck_pct ≥ 1000000`, not `luck_pct ≥ 10000`, so a row
with stored `luck_pct = 10000` is excluded, contradicting the claim. -/
theorem percent_filter_100_not_10000 :
    compileIncomeKeyParts cfg0 .asc "luck_percent" (some "gte") ["100"] =
      .ok (.conditions [⟨"t_luck_percent", .gte, .intV 1000000, "1000000"⟩]) ∧
    evalCondition ⟨"t_luck_percent", .gte, .intV 1000000, "1000000"⟩
      ⟨1, 5, 0, 10000⟩ = false := by
  decide

/-- C2 (amended): a percent filter value `p` compiles to the stored integer
`p × 10000` truncated toward zero (not rounded), so
`luck_percent.gte=100` compiles to `luck_pct ≥ 1000000`; a row matches that
condition exactly when its stored `luck_pct` is at least 1000000, hence
stored 9999 and 10000 are both excluded.  (Relative to the display scale,
which divides the stored integer by 100, filter inputs are interpreted 100
times too large.) -/
theorem percent_filter_scale_spec (cfg : ChainConfig) (order : OrderType)
    (r : IncomeRow) :
    compileIncomeKeyParts cfg order "luck_percent" (some "gte") ["100"] =
      .ok (.conditions [⟨"t_luck_percent", .gte, .intV 1000000, "1000000"⟩]) ∧
    (evalCondition ⟨"t_luck_percent", .gte, .intV 1000000, "1000000"⟩ r = true ↔
      1000000 ≤ r.luckPct) ∧
    ∀ n : ℕ, percentToStored ⟨(n : ℤ), 0⟩ = (n : ℤ) * 10000 := by
  refine ⟨rfl, ?_, ?_⟩
  · rw [show evalCondition ⟨"t_luck_percent", .gte, .intV 1000000, "1000000"⟩ r =
        decide (1000000 ≤ r.luckPct) from rfl]
    exact decide_eq_true_iff
  · intro n
    simp [percentToStored, Int.tdiv_one]

/-- C3 counterexample: rendering the stored percent 1 (as `0.01`) and
feeding the display back through the percent filter coercion yields 100,
which is not within 1 of the original stored value. -/
theorem percent_roundtrip_1_is_100 :
    percentRoundTrip 1 = 100 ∧ ¬ ((percentRoundTrip 1 - 1).natAbs ≤ 1) := by
  decide

/-- C3 (amended): for every stored percent integer p in [0, 10^6], rendering
it (divide by 100, two fractional digits) and parsing the display back
through the percent input transform (multiply by 10000, truncate) yields
100·p — not p — because the output scale (÷100) and the input scale
(×10000) are not inverses. -/
theorem percent_roundtrip_scale (p : ℤ) (h0 : 0 ≤ p) (h1 : p ≤ 10 ^ 6) :
    percentRoundTrip p = 100 * p := by
  unfold percentRoundTrip displayPercent percentToStored
  have h2 : p * 10000 = (100 * p) * 100 := by ring
  have h3 : ((10 : ℤ) ^ (2 : ℕ)) = 100 := by norm_num
  rw [h2, h3, Int.mul_tdiv_cancel _ (by norm_num)]

/-- C3 witness: the round trip at stored value 9999 returns 999900. -/
theorem percent_roundtrip_scale_witness : percentRoundTrip 9999 = 100 * 9999 :=
  percent_roundtrip_scale 9999 (by decide) (by decide)

/-- C4: for a positive block time, the compiled `time` condition follows the
spec resolution rule — a time not after the tip resolves through the block
index and a future time through tip extrapolation with floored division;
RANGE resolves both endpoints independently and EQ compiles to equality on
the cycle column at the resolved point. -/
theorem time_filter_resolution_spec (cfg : ChainConfig)
    (hb : 0 < cfg.blockTime) :
    (∀ t raw, compileTimeScalar cfg .equal t raw =
      { field := "c", mode := .equal,
        value := .intV (specResolveCycle cfg t), raw := raw }) ∧
    (∀ t1 t2 raw, compileTimeRange cfg t1 t2 raw =
      { field := "c", mode := .range,
        value := .rangeV (specResolveCycle cfg t1) (specResolveCycle cfg t2),
        raw := raw }) := by
  constructor
  · intro t raw
    unfold compileTimeScalar
    rw [resolveCycle_agrees cfg hb t]
  · intro t1 t2 raw
    unfold compileTimeRange
    rw [resolveCycle_agrees cfg hb t1, resolveCycle_agrees cfg hb t2]

/-- C4 witness: at the concrete configuration (tip height 100, tip time
1000, block time 10) the future time 2000 resolves to height 100 + 100 and
cycle 200. -/
theorem time_filter_resolution_spec_witness :
    compileTimeScalar cfg0 .equal 2000 "t" =
      { field := "c", mode := .equal,
        value := .intV (specResolveCycle cfg0 2000), raw := "t" } :=
  (time_filter_resolution_spec cfg0 (by decide)).1 2000 "t"

/-- C5: a numeric `cursor=N` compiles to a primary-key condition `pk > N`
under ASC and `pk < N` under DESC; a non-numeric cursor fails the request
with BAD_REQUEST/PARAM_INVALID before any rows are streamed. -/
theorem cursor_compilation_spec (v : String) (order : OrderType)
    (rows : List IncomeRow) :
    (∀ n : ℕ, parseUint64 v = some n →
      compileCursor v order =
        .ok { field := "I",
              mode := if order = .desc then FilterMode.lt else FilterMode.gt,
              value := .intV (n : ℤ), raw := v }) ∧
    (parseUint64 v = none →
      runIncomeQueryWith
          (match compileCursor v order with
           | .error e => .error e
           | .ok c => .ok [c]) rows =
        .error (.badRequest "EC_PARAM_INVALID" ("invalid cursor value " ++ v))) := by
  constructor
  · intro n hn
    unfold compileCursor
    rw [hn]
  · intro hn
    unfold compileCursor
    rw [hn]
    rfl

/-- C5 witness: cursor value 42 under ASC compiles to `pk > 42`. -/
theorem cursor_compilation_spec_witness :
    compileCursor "42" .asc =
      .ok { field := "I",
            mode := if OrderType.asc = OrderType.desc then FilterMode.lt
              else FilterMode.gt,
            value := .intV ((42 : ℕ) : ℤ), raw := "42" } :=
  (cursor_compilation_spec "42" .asc []).1 42 (by decide)

/-- C6: when streaming stops because the emitted row count reaches a
positive limit, the row callback returns the terminal non-error signal
`io.EOF`, and the response is a success: the trailing error text is empty
and the status stays 200. -/
theorem limit_termination_not_error (render : IncomeRow → String)
    (cur : String) (limit : ℕ) (rows : List IncomeRow)
    (h1 : 0 < limit) (h2 : limit ≤ rows.length) :
    (runCallbackLoop limit rows 0).2.2 = some .eof ∧
    dispatchJSON render cur limit rows none =
      [.statusLine 200, .body "["] ++ rowEvents render (rows.take limit) ++
        [.body "]",
         .trailer (nextCursor cur (rows.take limit)) limit ""] := by
  have hloop := runCallbackLoop_limit_hit limit rows 0 h1 (by omega)
  rw [Nat.sub_zero] at hloop
  constructor
  · rw [hloop]
  · unfold dispatchJSON runStream
    rw [hloop]
    rfl

/-- C6 witness: one row, limit 1: the callback stops with EOF and the
trailer reports count 1 with an empty error. -/
theorem limit_termination_not_error_witness :
    (runCallbackLoop 1 [row5] 0).2.2 = some .eof ∧
    dispatchJSON (fun r => toString r.rowId) "c0" 1 [row5] none =
      [.statusLine 200, .body "["] ++
        rowEvents (fun r => toString r.rowId) ([row5].take 1) ++
        [.body "]", .trailer (nextCursor "c0" ([row5].take 1)) 1 ""] :=
  limit_termination_not_error (fun r => toString r.rowId) "c0" 1 [row5]
    (by decide) (by decide)

/-- C7: when the iterator fails after the headers and the opening bracket
have been written, the closing bracket is still written before the request
terminates, and the error together with the cursor and the row count is
conveyed in the trailer while the status stays the already-sent 200. -/
theorem json_bracket_closed_on_failure (render : IncomeRow → String)
    (cur : String) (limit : ℕ) (rows : List IncomeRow) (m : String)
    (h : limit = 0 ∨ rows.length < limit) :
    dispatchJSON render cur limit rows (some m) =
      [.statusLine 200, .body "["] ++ rowEvents render rows ++
        [.body "]", .trailer (nextCursor cur rows) rows.length m] := by
  have hloop := runCallbackLoop_no_cutoff limit rows 0 (by omega)
  rw [Nat.zero_add] at hloop
  unfold dispatchJSON runStream
  rw [hloop]
  rfl

/-- C7 witness: a failure after one emitted row still closes the bracket
and carries the message, cursor and count in the trailer. -/
theorem json_bracket_closed_on_failure_witness :
    dispatchJSON (fun r => toString r.rowId) "c0" 0 [row5] (some "boom") =
      [.statusLine 200, .body "["] ++
        rowEvents (fun r => toString r.rowId) [row5] ++
        [.body "]", .trailer (nextCursor "c0" [row5]) (List.length [row5]) "boom"] :=
  json_bracket_closed_on_failure (fun r => toString r.rowId) "c0" 0 [row5]
    "boom" (Or.inl rfl)

/-- C8 counterexample: the key `bogus.badmode=1`, whose field name is
unknown AND whose mode suffix is unparseable, is rejected as an invalid
mode — not as an unknown field as the claim requires. -/
theorem bogus_badmode_rejected_as_invalid_mode :
    compileIncomeKey cfg0 .asc "bogus.badmode" ["1"] =
      .error (.badRequest "EC_PARAM_INVALID" "invalid filter mode badmode") ∧
    compileIncomeKey cfg0 .asc "bogus.badmode" ["1"] ≠
      .error (.badRequest "EC_PARAM_INVALID" "unknown column bogus") := by
  decide

/-- C8 (amended): rejection of an invalid filter key is deterministic per
key, but the precedence puts the unknown-mode check first: any key with an
unparseable mode suffix is rejected as an invalid mode, regardless of the
field name; a key with an unknown field name and a valid or absent mode
suffix (that is none of the reserved or specially dispatched keys) is
rejected as an unknown column. -/
theorem rejection_precedence_mode_before_field (cfg : ChainConfig)
    (order : OrderType) (pre suf : String) (vals : List String) :
    (parseFilterMode suf = .invalid →
      compileIncomeKeyParts cfg order pre (some suf) vals =
        .error (.badRequest "EC_PARAM_INVALID" ("invalid filter mode " ++ suf))) ∧
    (∀ suffix : Option String,
      (suffix = none ∨ ∃ s, suffix = some s ∧ (parseFilterMode s).isValid = true) →
      incomeSourceNames pre = none → pre ≠ "columns" → pre ≠ "limit" →
      pre ≠ "order" → pre ≠ "verbose" → pre ≠ "filename" → pre ≠ "cursor" →
      pre ≠ "address" → pre ≠ "time" →
      compileIncomeKeyParts cfg order pre suffix vals =
        .error (.badRequest "EC_PARAM_INVALID" ("unknown column " ++ pre))) := by
  constructor
  · intro h
    simp [compileIncomeKeyParts, resolveMode, h, FilterMode.isValid]
  · intro suffix hsuf hu h1 h2 h3 h4 h5 h6 h7 h8
    have hm : ∃ mode, resolveMode suffix = .ok mode := by
      rcases hsuf with h | ⟨s, rfl, hv⟩
      · subst h
        exact ⟨.equal, rfl⟩
      · exact ⟨parseFilterMode s, by simp [resolveMode, hv]⟩
    obtain ⟨mode, hm⟩ := hm
    simp only [compileIncomeKeyParts, hm, hu]
    rw [if_neg (by simp [h1, h2, h3, h4, h5]), if_neg h6, if_neg h7, if_neg h8]

/-- C8 witness: the invalid-mode rejection fires for an unknown field with
an unparseable suffix, while the same unknown field with an absent suffix
or with the valid suffix `gte` is rejected as an unknown column. -/
theorem rejection_precedence_mode_before_field_witness :
    compileIncomeKeyParts cfg0 .asc "zzz" (some "wat") ["9"] =
      .error (.badRequest "EC_PARAM_INVALID" "invalid filter mode wat") ∧
    compileIncomeKeyParts cfg0 .asc "zzz" none ["9"] =
      .error (.badRequest "EC_PARAM_INVALID" "unknown column zzz") ∧
    compileIncomeKeyParts cfg0 .asc "zzz" (some "gte") ["9"] =
      .error (.badRequest "EC_PARAM_INVALID" "unknown column zzz") :=
  ⟨(rejection_precedence_mode_before_field cfg0 .asc "zzz" "wat" ["9"]).1
      (by decide),
   (rejection_precedence_mode_before_field cfg0 .asc "zzz" "wat" ["9"]).2
      none (Or.inl rfl) (by decide) (by decide) (by decide) (by decide)
      (by decide) (by decide) (by decide) (by decide) (by decide),
   (rejection_precedence_mode_before_field cfg0 .asc "zzz" "wat" ["9"]).2
      (some "gte") (Or.inr ⟨"gte", rfl, by decide⟩) (by decide) (by decide)
      (by decide) (by decide) (by decide) (by decide) (by decide) (by decide)
      (by decide)⟩

/-- C9 counterexample: a projection containing an unknown column name does
not succeed — the compiler rejects the request with BAD_REQUEST before any
row is encoded. -/
theorem unknown_projection_column_rejected :
    resolveColumns ["row_id", "bogus", "cycle"] =
      .error (.badRequest "EC_PARAM_INVALID" "unknown column bogus") := by
  decide

/-- C9 (amended): a projection containing a column name unknown to the
field registry is rejected at compile time with BAD_REQUEST/PARAM_INVALID
(unknown column), so unknown columns never reach the encoder; the brief
encoder itself, were it handed an unknown name, would skip both the value
and the separator, encoding `columns=row_id,bogus,cycle` as the two-field
array. -/
theorem unknown_projection_column_spec (cols : List String) (v : String)
    (hv : v ∈ cols) (hu : incomeSourceNames v = none) :
    (∃ w, incomeSourceNames w = none ∧
      resolveColumns cols =
        .error (.badRequest "EC_PARAM_INVALID" ("unknown column " ++ w))) ∧
    marshalJSONBrief ["row_id", "bogus", "cycle"] ⟨7, 5, 42, 0⟩ = "[7,42]" := by
  refine ⟨?_, by decide⟩
  induction cols with
  | nil => cases hv
  | cons c rest ih =>
    rcases List.mem_cons.mp hv with hch | hrest
    · subst hch
      exact ⟨v, hu, by simp [resolveColumns, hu]⟩
    · match hx : incomeSourceNames c with
      | none => exact ⟨c, hx, by simp [resolveColumns, hx]⟩
      | some n =>
        obtain ⟨w, hw, hres⟩ := ih hrest
        exact ⟨w, hw, by simp [resolveColumns, hx, hres]⟩

/-- C9 witness: the concrete projection `cycle,nope` is rejected with the
unknown-column error, while the two-known-field brief encoding drops the
unknown column without a separator. -/
theorem unknown_projection_column_spec_witness :
    (∃ w, incomeSourceNames w = none ∧
      resolveColumns ["cycle", "nope"] =
        .error (.badRequest "EC_PARAM_INVALID" ("unknown column " ++ w))) ∧
    marshalJSONBrief ["row_id", "bogus", "cycle"] ⟨7, 5, 42, 0⟩ = "[7,42]" :=
  unknown_projection_column_spec ["cycle", "nope"] "nope" (by decide) (by decide)

/-- C10: a `start_time` or `end_time` filter with any mode other than EQ is
rejected with a bad-request error before rows stream; the EQ form compiles
to `cycle ≥ c` for `start_time` and `cycle ≤ c` for `end_time`, where c is
derived through the block index lookup alone — with no future-time
extrapolation — for every time value. -/
theorem start_end_time_filter_spec (cfg : ChainConfig) (order : OrderType)
    (v : String) :
    (∀ pre suf, (pre = "start_time" ∨ pre = "end_time") →
      parseFilterMode suf ≠ .equal →
      ∃ msg, compileIncomeKeyParts cfg order pre (some suf) [v] =
        .error (.badRequest "EC_PARAM_INVALID" msg)) ∧
    (∀ t, cfg.parseTime v = some t →
      compileIncomeKeyParts cfg order "start_time" none [v] =
        .ok (.conditions
          [⟨"c", .gte, .intV (cfg.cycleFromHeight (cfg.heightFromTime t)), v⟩]) ∧
      compileIncomeKeyParts cfg order "end_time" none [v] =
        .ok (.conditions
          [⟨"c", .lte, .intV (cfg.cycleFromHeight (cfg.heightFromTime t)), v⟩])) := by
  constructor
  · intro pre suf hpre hmode
    by_cases hv : (parseFilterMode suf).isValid = true
    · have hm : resolveMode (some suf) = .ok (parseFilterMode suf) := by
        simp [resolveMode, hv]
      rcases hpre with hp | hp
      · subst hp
        rw [compileIncomeKeyParts_generic cfg order "start_time" (some suf) [v]
          (parseFilterMode suf) "c" hm (by decide) (by decide) (by decide)
          (by decide) (by decide) (by decide) (by decide) (by decide) rfl]
        refine ⟨"invalid filter mode for column start_time", ?_⟩
        simp [mapExcept, compileGenericValue, compileStartEndTime, hmode]
      · subst hp
        rw [compileIncomeKeyParts_generic cfg order "end_time" (some suf) [v]
          (parseFilterMode suf) "c" hm (by decide) (by decide) (by decide)
          (by decide) (by decide) (by decide) (by decide) (by decide) rfl]
        refine ⟨"invalid filter mode for column end_time", ?_⟩
        simp [mapExcept, compileGenericValue, compileStartEndTime, hmode]
    · have hm : resolveMode (some suf) =
          .error (.badRequest "EC_PARAM_INVALID" ("invalid filter mode " ++ suf)) := by
        simp [resolveMode, hv]
      refine ⟨"invalid filter mode " ++ suf, ?_⟩
      rcases hpre with hp | hp <;> subst hp <;>
        simp [compileIncomeKeyParts, hm]
  · intro t ht
    constructor
    · rw [compileIncomeKeyParts_generic cfg order "start_time" none [v]
        .equal "c" rfl (by decide) (by decide) (by decide) (by decide)
        (by decide) (by decide) (by decide) (by decide) rfl]
      simp [mapExcept, compileGenericValue, compileStartEndTime, ht]
    · rw [compileIncomeKeyParts_generic cfg order "end_time" none [v]
        .equal "c" rfl (by decide) (by decide) (by decide) (by decide)
        (by decide) (by decide) (by decide) (by decide) rfl]
      simp [mapExcept, compileGenericValue, compileStartEndTime, ht]

/-- C10 witness: at the concrete configuration, `start_time=500` and
`end_time=500` compile to the cycle bounds at the looked-up height, and
`start_time.gte` is rejected. -/
theorem start_end_time_filter_spec_witness :
    compileIncomeKeyParts cfg0 .asc "start_time" none ["500"] =
      .ok (.conditions
        [⟨"c", .gte, .intV (cfg0.cycleFromHeight (cfg0.heightFromTime 500)), "500"⟩]) ∧
    compileIncomeKeyParts cfg0 .asc "end_time" none ["500"] =
      .ok (.conditions
        [⟨"c", .lte, .intV (cfg0.cycleFromHeight (cfg0.heightFromTime 500)), "500"⟩]) :=
  (start_end_time_filter_spec cfg0 .asc "500").2 500 (by decide)

end Tzindex

